import Mathlib

/-!
Verification of the category lookup and ranking subsystem
(`src/handlers/category.handlers.ts`) of the naver-search-mcp server.

The TypeScript source is shallowly embedded below:
* JS strings are modelled as `String` / `List Char` (one `Char` per UTF-16
  code unit; all data involved lies in the BMP).
* `String.prototype.toLowerCase` is `Char.toLower` mapped over the
  characters (the data is ASCII/Korean, where the two agree).
* `Array.prototype.sort` with a consistent comparator is modelled by a
  stable sort (`List.insertionSort`) under the ordering induced by the
  comparator; `localeCompare` is modelled as code-point lexicographic
  comparison.
* JS numbers are `Nat` / `Int` where integral and `ℚ` for the similarity
  quotient; `Math.floor` is `Rat.floor`.
* The module-level cache of `getCategoriesData` is modelled by explicit
  state passing, and the filesystem reads by a `ReadResult` environment.
-/

/-- One character of JS whitespace, as removed by `String.prototype.trim`. -/
def jsIsSpace (c : Char) : Bool := c.isWhitespace

/-- Model of `String.prototype.trim`: strip leading and trailing whitespace. -/
def jsTrim (s : List Char) : List Char :=
  ((s.dropWhile jsIsSpace).reverse.dropWhile jsIsSpace).reverse

/-- Model of `String.prototype.toLowerCase` on the character list. -/
def jsLower (s : List Char) : List Char := s.map Char.toLower

/-- Model of `s.startsWith(q)` for JS strings: `q` is a prefix of `s`. -/
def jsStartsWith (s q : List Char) : Bool := List.isPrefixOf q s

/-- Model of `hay.includes(needle)` for JS strings: `needle` occurs
contiguously in `hay`. -/
def jsIncludes (needle : List Char) : List Char → Bool
  | [] => List.isPrefixOf needle []
  | c :: t => List.isPrefixOf needle (c :: t) || jsIncludes needle t

/-- Code-point lexicographic `≤` on character lists; model of
`a.localeCompare(b) <= 0` for the opaque category codes. -/
def lexLe : List Char → List Char → Bool
  | [], _ => true
  | _ :: _, [] => false
  | x :: xs, y :: ys => if x = y then lexLe xs ys else decide (x < y)

/-- Entry `matrix[j][i]` of the Levenshtein dynamic-programming table built by
`levenshteinDistance` (source lines 164-182): row 0 and column 0 hold the
index values, and interior cells satisfy
`matrix[j][i] = min(matrix[j][i-1]+1, matrix[j-1][i]+1, matrix[j-1][i-1]+cost)`
with unit substitution cost on `str1[i-1] === str2[j-1]`.  The first argument
is structural-recursion fuel; every call keeps `j + i ≤ fuel`, so the fuel-0
fallback is never reached from `levenshteinDistance`. -/
def levCell (str1 str2 : List Char) : Nat → Nat → Nat → Nat
  | 0, _, _ => 0
  | _ + 1, 0, i => i
  | _ + 1, j + 1, 0 => j + 1
  | f + 1, j + 1, i + 1 =>
      min (min (levCell str1 str2 f (j + 1) i + 1) (levCell str1 str2 f j (i + 1) + 1))
        (levCell str1 str2 f j i + (if str1.getD i ' ' = str2.getD j ' ' then 0 else 1))

/-- Model of `levenshteinDistance(str1, str2)` (source lines 164-182): the
bottom-right entry `matrix[str2.length][str1.length]` of the DP table. -/
def levenshteinDistance (str1 str2 : List Char) : Nat :=
  levCell str1 str2 (str2.length + str1.length) str2.length str1.length

/-- Model of `calculateSimilarity(str1, str2)` (source lines 151-159):
`(longer.length - levenshteinDistance(longer, shorter)) / longer.length`,
and `1.0` when both strings are empty.  `Rat.divInt` is exact rational
division of the two integers. -/
def calculateSimilarity (str1 str2 : List Char) : ℚ :=
  let longer := if str2.length < str1.length then str1 else str2
  let shorter := if str2.length < str1.length then str2 else str1
  if longer.length = 0 then 1
  else Rat.divInt ((longer.length : Int) - (levenshteinDistance longer shorter : Int))
    (longer.length : Int)

/-- Model of the `CategoryData` interface (source lines 45-51).  Absent level
strings are modelled as `""`, matching both the JS falsiness test
`if (!level.value)` and the `filter(Boolean)` in the formatter. -/
structure CategoryData where
  code : String
  level1 : String
  level2 : String
  level3 : String
  level4 : String
deriving DecidableEq, Repr

/-- A scored match candidate: the spread `{ ...category, score, matchType }`
pushed into `results` (source lines 128-132). -/
structure MatchCand where
  cat : CategoryData
  score : Nat
  matchType : String
deriving DecidableEq, Repr

/-- The per-record level array `[{value: level1, name: '대분류'}, ...]`
(source lines 76-81). -/
def levelList (c : CategoryData) : List (String × String) :=
  [(c.level1, "대분류"), (c.level2, "중분류"), (c.level3, "소분류"), (c.level4, "세분류")]

/-- The level-based bonus chain (source lines 91-95). -/
def levelBonus (name : String) : Nat :=
  if name = "대분류" then 50
  else if name = "중분류" then 30
  else if name = "소분류" then 20
  else if name = "세분류" then 10
  else 0

/-- Scoring of one populated level against the normalized query
(source lines 86-119): tiers exact / startsWith / includes / fuzzy,
`(0, "")` when no tier applies.  `Rat.divInt 6 10` is the literal `0.6`. -/
def scoreLevel (searchQuery : List Char) (lv : String × String) : Nat × String :=
  let levelText := jsLower lv.1.data
  let bonus := levelBonus lv.2
  if levelText = searchQuery then
    (100 + bonus, "정확일치(" ++ lv.2 ++ ")")
  else if jsStartsWith levelText searchQuery then
    (80 + bonus, "시작일치(" ++ lv.2 ++ ")")
  else if jsIncludes searchQuery levelText then
    (60 + bonus, "포함일치(" ++ lv.2 ++ ")")
  else
    let similarity := calculateSimilarity searchQuery levelText
    if Rat.divInt 6 10 < similarity then
      (((similarity * 40).floor.toNat + bonus), "유사일치(" ++ lv.2 ++ ")")
    else (0, "")

/-- The update step of the best-level scan: replace the tracked best only on a
strictly greater score (`if (score > bestScore)`, source lines 121-124). -/
def pickBest (best s : Nat × String) : Nat × String :=
  if best.1 < s.1 then s else best

/-- The per-record scan over the four levels (source lines 72-125): empty
levels are skipped (`if (!level.value) continue`), and the best
`(score, matchType)` pair is tracked starting from `(0, "")`. -/
def bestMatch (searchQuery : List Char) (c : CategoryData) : Nat × String :=
  (levelList c).foldl
    (fun best lv => if lv.1 = "" then best else pickBest best (scoreLevel searchQuery lv))
    (0, "")

/-- Candidate construction for one record (source lines 127-133): a record
enters `results` exactly when its best score is positive. -/
def candidateOf (searchQuery : List Char) (c : CategoryData) : Option MatchCand :=
  let b := bestMatch searchQuery c
  if 0 < b.1 then some ⟨c, b.1, b.2⟩ else none

/-- The ordering imposed by the sort comparator (source lines 138-144):
`(a, b) => b.score - a.score`, ties broken by `a.code.localeCompare(b.code)`.
`rankLe a b` states that `a` may come no later than `b`. -/
def rankLe (a b : MatchCand) : Prop :=
  b.score < a.score ∨ (a.score = b.score ∧ lexLe a.cat.code.data b.cat.code.data = true)

instance : DecidableRel rankLe := fun a b =>
  inferInstanceAs (Decidable (b.score < a.score ∨
    (a.score = b.score ∧ lexLe a.cat.code.data b.cat.code.data = true)))

/-- Strict version of `rankLe`, used to derive determinism of the ranking for
candidate lists with pairwise distinct codes. -/
def rankLt (a b : MatchCand) : Prop :=
  b.score < a.score ∨
    (a.score = b.score ∧ lexLe a.cat.code.data b.cat.code.data = true ∧ a.cat.code ≠ b.cat.code)

/-- Model of `list.slice(0, endIdx)` for an `Int` end index: a nonnegative
index takes that many leading elements (clamped to the length), a negative
index counts from the end. -/
def jsSlice0 {α : Type} (l : List α) (endIdx : Int) : List α :=
  if endIdx < 0 then l.take (l.length - endIdx.natAbs) else l.take endIdx.toNat

/-- The ranking tail of `smartCategorySearch` (source lines 136-145): stable
sort by the comparator, then `slice(0, maxResults)`. -/
def rankCandidates (results : List MatchCand) (maxResults : Int) : List MatchCand :=
  jsSlice0 (List.insertionSort rankLe results) maxResults

/-- The query normalization `query.toLowerCase().trim()` (source line 68). -/
def normQuery (query : String) : List Char := jsTrim (jsLower query.data)

/-- Model of `smartCategorySearch(query, maxResults)` (source lines 66-146)
over an explicitly passed taxonomy (the loaded `categories` array). -/
def smartCategorySearch (categories : List CategoryData) (query : String)
    (maxResults : Int) : List MatchCand :=
  rankCandidates (categories.filterMap (candidateOf (normQuery query))) maxResults

/-- The fully sorted candidate list, before truncation. -/
def sortedCandidates (categories : List CategoryData) (query : String) : List MatchCand :=
  List.insertionSort rankLe (categories.filterMap (candidateOf (normQuery query)))

/-- The `levels` object of one response entry (source lines 206-211); the
fields hold the keys `대분류`, `중분류`, `소분류`, `세분류` in order. -/
structure LevelsObj where
  l1 : String
  l2 : String
  l3 : String
  l4 : String
deriving DecidableEq, Repr

/-- One element of the `categories` array of a successful response
(source lines 201-212). -/
structure CategoryEntry where
  code : String
  category : String
  match_type : String
  score : Nat
  levels : LevelsObj
deriving DecidableEq, Repr

/-- The joined breadcrumb
`[level1, level2, level3, level4].filter(Boolean).join(' > ')`
(source line 203). -/
def breadcrumb (c : CategoryData) : String :=
  String.intercalate " > "
    (([c.level1, c.level2, c.level3, c.level4]).filter (fun s => s != ""))

/-- Formatting of one ranked candidate into a response entry
(source lines 201-212). -/
def mkEntry (m : MatchCand) : CategoryEntry :=
  { code := m.cat.code
    category := breadcrumb m.cat
    match_type := m.matchType
    score := m.score
    levels := ⟨m.cat.level1, m.cat.level2, m.cat.level3, m.cat.level4⟩ }

/-- The static suggestion list of the no-results branch (source line 194). -/
def suggestionList : List String :=
  ["패션", "화장품", "가구", "스마트폰", "가전제품", "스포츠", "도서", "자동차", "식품", "뷰티"]

/-- The no-results message (source line 193). -/
def noResultMessage (query : String) : String :=
  "\"" ++ query ++ "\"와 관련된 카테고리를 찾을 수 없습니다. 다른 검색어를 시도해보세요."

/-- The success message (source line 199). -/
def successMessage (query : String) (n : Nat) : String :=
  "\"" ++ query ++ "\" 검색 결과 (" ++ toString n ++ "개, 관련도순 정렬)"

/-- The fixed `next_steps` object (source lines 213-218), as key/text pairs. -/
def nextStepsList : List (String × String) :=
  [("trend_analysis", "이제 datalab_shopping_category 도구로 각 카테고리의 트렌드 분석이 가능합니다"),
   ("age_analysis", "datalab_shopping_age 도구로 연령별 쇼핑 패턴을 분석할 수 있습니다"),
   ("gender_analysis", "datalab_shopping_gender 도구로 성별 쇼핑 패턴을 분석할 수 있습니다"),
   ("device_analysis", "datalab_shopping_device 도구로 디바이스별 쇼핑 패턴을 분석할 수 있습니다")]

/-- The two possible response shapes of `findCategoryHandler`
(source lines 191-221). -/
inductive FindCategoryResult where
  | noMatches (message : String) (suggestions : List String)
  | success (message : String) (total_found : Nat) (categories : List CategoryEntry)
      (next_steps : List (String × String))
deriving DecidableEq, Repr

/-- Model of `findCategoryHandler({query, max_results})` (source lines
187-225) over an explicitly passed taxonomy.  The handler body never throws:
the computation is total, so the `catch` wrapper is dead code here. -/
def findCategoryHandler (categories : List CategoryData) (query : String)
    (max_results : Int) : FindCategoryResult :=
  let results := smartCategorySearch categories query max_results
  if results.length = 0 then
    FindCategoryResult.noMatches (noResultMessage query) suggestionList
  else
    FindCategoryResult.success (successMessage query results.length) results.length
      (results.map mkEntry) nextStepsList

/-- The `total_found` field of a response, when present. -/
def FindCategoryResult.totalFound : FindCategoryResult → Option Nat
  | .noMatches _ _ => none
  | .success _ n _ _ => some n

/-- The `categories` array of a response, when present. -/
def FindCategoryResult.resultEntries : FindCategoryResult → Option (List CategoryEntry)
  | .noMatches _ _ => none
  | .success _ _ es _ => some es

/-- Whether a response is the no-results shape. -/
def FindCategoryResult.isNoMatches : FindCategoryResult → Bool
  | .noMatches _ _ => true
  | .success _ _ _ _ => false

/-- Outcome of probing one dataset path in `getCategoriesData`:
the file may be missing, present but unparsable, or parsed to records. -/
inductive ReadResult where
  | missing
  | malformed
  | found (data : List CategoryData)
deriving DecidableEq, Repr

/-- Model of `getCategoriesData()` (source lines 9-35) with the module-level
`categoriesCache` passed and returned explicitly.  A cached value is returned
unchanged.  Otherwise the bundled path is probed first, then the source path;
a parse error at either probed path raises inside the `try`, is caught, and
yields `[]` with the cache untouched, as does the final `throw` when both
paths are missing. -/
def getCategoriesData (cache : Option (List CategoryData)) (bundled sourcePath : ReadResult) :
    List CategoryData × Option (List CategoryData) :=
  match cache with
  | some d => (d, some d)
  | none =>
    match bundled with
    | .found d => (d, some d)
    | .malformed => ([], none)
    | .missing =>
      match sourcePath with
      | .found d => (d, some d)
      | .malformed => ([], none)
      | .missing => ([], none)

/-- Model of `clearCategoriesCache()` (source lines 40-42): resets the
module-level cache to `null`. -/
def clearCategoriesCache (_cache : Option (List CategoryData)) : Option (List CategoryData) :=
  none

/-- Variant of `scoreLevel` written from the specification's wording for the
normalization step, which says each present level string is lower-cased AND
trimmed for comparison; the implementation only lower-cases.  Used to refute
that wording. -/
def scoreLevelTrimmed (searchQuery : List Char) (lv : String × String) : Nat × String :=
  let levelText := jsTrim (jsLower lv.1.data)
  let bonus := levelBonus lv.2
  if levelText = searchQuery then
    (100 + bonus, "정확일치(" ++ lv.2 ++ ")")
  else if jsStartsWith levelText searchQuery then
    (80 + bonus, "시작일치(" ++ lv.2 ++ ")")
  else if jsIncludes searchQuery levelText then
    (60 + bonus, "포함일치(" ++ lv.2 ++ ")")
  else
    let similarity := calculateSimilarity searchQuery levelText
    if Rat.divInt 6 10 < similarity then
      (((similarity * 40).floor.toNat + bonus), "유사일치(" ++ lv.2 ++ ")")
    else (0, "")

/-- The `(score, matchType)` pairs of the populated levels of a record, in
level order: the inputs actually scanned by `bestMatch`. -/
def populatedLevelScores (searchQuery : List Char) (c : CategoryData) : List (Nat × String) :=
  ((levelList c).filter (fun lv => lv.1 != "")).map (scoreLevel searchQuery)

/-- Pairwise distinct category codes, the dataset invariant stated in the
specification's data model. -/
def distinctCodes (l : List MatchCand) : Prop :=
  l.Pairwise (fun a b => a.cat.code ≠ b.cat.code)

instance (l : List MatchCand) : Decidable (distinctCodes l) := by
  unfold distinctCodes
  infer_instance

/-- Sample record: a two-level fashion category. -/
def catEx1 : CategoryData := ⟨"50000002", "패션의류", "패션잡화", "", ""⟩

/-- Sample record whose level1 prefix-matches and whose level2 exactly matches
the query `"신발"`, both scoring 130. -/
def catTie : CategoryData := ⟨"50000010", "신발가방", "신발", "", ""⟩

/-- Sample record with a trailing space in its level1 label. -/
def catPad : CategoryData := ⟨"50000300", "패션 ", "", "", ""⟩

/-- Sample record matching none of the tiers for the query `"패션"`. -/
def catMiss : CategoryData := ⟨"50000400", "xyz", "", "", ""⟩

/-- Sample taxonomy of three records all prefix-matching the query "운동". -/
def cats3 : List CategoryData :=
  [⟨"50000201", "운동화", "", "", ""⟩, ⟨"50000202", "운동복", "", "", ""⟩,
   ⟨"50000203", "운동기구", "", "", ""⟩]

/-- Sample candidates with distinct codes, two of them tied on score. -/
def candA : MatchCand := ⟨⟨"50000100", "도서", "", "", ""⟩, 150, "정확일치(대분류)"⟩

/-- Second sample candidate. -/
def candB : MatchCand := ⟨⟨"50000102", "도서문구", "", "", ""⟩, 130, "시작일치(대분류)"⟩

/-- Third sample candidate, tied with `candB` on score. -/
def candC : MatchCand := ⟨⟨"50000101", "도서음반", "", "", ""⟩, 130, "시작일치(대분류)"⟩

theorem lexLe_refl (a : List Char) : lexLe a a = true := by
  induction a with
  | nil => rfl
  | cons x xs ih => simp [lexLe, ih]

theorem lexLe_total (a b : List Char) : lexLe a b = true ∨ lexLe b a = true := by
  induction a generalizing b with
  | nil => left; rfl
  | cons x xs ih =>
    cases b with
    | nil => right; rfl
    | cons y ys =>
      by_cases hxy : x = y
      · subst hxy
        rcases ih ys with h | h
        · left; simp [lexLe, h]
        · right; simp [lexLe, h]
      · rcases lt_or_gt_of_ne hxy with h | h
        · left; simp [lexLe, hxy, h]
        · right; simp [lexLe, Ne.symm hxy, h, not_lt.mpr h.le]

theorem lexLe_trans {a b c : List Char} (hab : lexLe a b = true) (hbc : lexLe b c = true) :
    lexLe a c = true := by
  induction a generalizing b c with
  | nil => rfl
  | cons x xs ih =>
    cases b with
    | nil => simp [lexLe] at hab
    | cons y ys =>
      cases c with
      | nil => simp [lexLe] at hbc
      | cons z zs =>
        by_cases hxy : x = y <;> by_cases hyz : y = z
        · subst hxy; subst hyz
          simp only [lexLe, if_pos rfl] at hab hbc ⊢
          exact ih hab hbc
        · subst hxy
          simp only [lexLe, if_pos rfl] at hab
          simpa [lexLe, hyz] using hbc
        · subst hyz
          simpa [lexLe, hxy] using hab
        · simp only [lexLe, if_neg hxy, decide_eq_true_eq] at hab
          simp only [lexLe, if_neg hyz, decide_eq_true_eq] at hbc
          have hxz : x < z := lt_trans hab hbc
          simp [lexLe, ne_of_lt hxz, hxz]

theorem lexLe_antisymm {a b : List Char} (hab : lexLe a b = true) (hba : lexLe b a = true) :
    a = b := by
  induction a generalizing b with
  | nil =>
    cases b with
    | nil => rfl
    | cons y ys => simp [lexLe] at hba
  | cons x xs ih =>
    cases b with
    | nil => simp [lexLe] at hab
    | cons y ys =>
      by_cases hxy : x = y
      · subst hxy
        simp only [lexLe, if_pos rfl] at hab hba
        exact congrArg (x :: ·) (ih hab hba)
      · simp only [lexLe, if_neg hxy, decide_eq_true_eq] at hab
        simp only [lexLe, if_neg (Ne.symm hxy), decide_eq_true_eq] at hba
        exact absurd hba (not_lt.mpr hab.le)

instance : IsTotal MatchCand rankLe := by
  constructor
  intro a b
  rcases Nat.lt_trichotomy a.score b.score with h | h | h
  · right; left; exact h
  · rcases lexLe_total a.cat.code.data b.cat.code.data with hl | hl
    · left; right; exact ⟨h, hl⟩
    · right; right; exact ⟨h.symm, hl⟩
  · left; left; exact h

instance : IsTrans MatchCand rankLe := by
  constructor
  intro a b c hab hbc
  rcases hab with hab | ⟨hab, hlab⟩ <;> rcases hbc with hbc | ⟨hbc, hlbc⟩
  · left; exact lt_trans hbc hab
  · left; exact hbc ▸ hab
  · left; exact hab ▸ hbc
  · right; exact ⟨hab.trans hbc, lexLe_trans hlab hlbc⟩

theorem rankLe_refl (a : MatchCand) : rankLe a a :=
  Or.inr ⟨rfl, lexLe_refl _⟩

instance : IsAntisymm MatchCand rankLt := by
  constructor
  intro a b hab hba
  rcases hab with hab | ⟨hab, _, _⟩ <;> rcases hba with hba | ⟨hba, _, _⟩
  · exact absurd hba (Nat.lt_asymm hab)
  · exact absurd hab (hba ▸ lt_irrefl _)
  · exact absurd hba (hab ▸ lt_irrefl _)
  · rename_i hlab hnab hlba hnba
    exact absurd (String.ext (lexLe_antisymm hlab hlba)) hnab

theorem rankLe_and_ne_imp_rankLt {a b : MatchCand} (h : rankLe a b)
    (hne : a.cat.code ≠ b.cat.code) : rankLt a b := by
  rcases h with h | ⟨h, hl⟩
  · left; exact h
  · right; exact ⟨h, hl, hne⟩

theorem sorted_rank (l : List MatchCand) :
    List.Sorted rankLe (List.insertionSort rankLe l) :=
  List.sorted_insertionSort rankLe l

theorem perm_rank (l : List MatchCand) :
    (List.insertionSort rankLe l).Perm l :=
  List.perm_insertionSort rankLe l

theorem sorted_rankLt (l : List MatchCand) (hd : distinctCodes l) :
    List.Sorted rankLt (List.insertionSort rankLe l) := by
  have hd' : distinctCodes (List.insertionSort rankLe l) := by
    have hsym : ∀ {x y : MatchCand}, x.cat.code ≠ y.cat.code → y.cat.code ≠ x.cat.code :=
      fun h => h.symm
    exact (List.Perm.pairwise_iff hsym (perm_rank l)).mpr hd
  exact ((sorted_rank l).and hd').imp fun h => rankLe_and_ne_imp_rankLt h.1 h.2

theorem insertionSort_eq_of_perm {l₁ l₂ : List MatchCand} (hperm : l₁.Perm l₂)
    (hd : distinctCodes l₁) :
    List.insertionSort rankLe l₁ = List.insertionSort rankLe l₂ := by
  have hd₂ : distinctCodes l₂ := by
    have hsym : ∀ {x y : MatchCand}, x.cat.code ≠ y.cat.code → y.cat.code ≠ x.cat.code :=
      fun h => h.symm
    exact (List.Perm.pairwise_iff hsym hperm).mp hd
  exact List.eq_of_perm_of_sorted
    ((perm_rank l₁).trans (hperm.trans (perm_rank l₂).symm))
    (sorted_rankLt l₁ hd) (sorted_rankLt l₂ hd₂)

theorem runBest_fst (ps : List (Nat × String)) (b : Nat × String) :
    (ps.foldl pickBest b).1 = ps.foldl (fun a p => max a p.1) b.1 := by
  induction ps generalizing b with
  | nil => rfl
  | cons p ps ih =>
    simp only [List.foldl_cons]
    rw [ih]
    congr 1
    unfold pickBest
    split <;> omega

theorem runBest_le (ps : List (Nat × String)) (b : Nat × String) :
    b.1 ≤ (ps.foldl pickBest b).1 := by
  induction ps generalizing b with
  | nil => exact le_refl _
  | cons p ps ih =>
    simp only [List.foldl_cons]
    refine le_trans ?_ (ih (pickBest b p))
    unfold pickBest
    split <;> omega

theorem runBest_fix (ps : List (Nat × String)) (b : Nat × String)
    (h : (ps.foldl pickBest b).1 = b.1) : ps.foldl pickBest b = b := by
  induction ps generalizing b with
  | nil => rfl
  | cons p ps ih =>
    simp only [List.foldl_cons] at h ⊢
    by_cases hbp : b.1 < p.1
    · exfalso
      have h1 : (pickBest b p).1 = p.1 := by unfold pickBest; rw [if_pos hbp]
      have := runBest_le ps (pickBest b p)
      omega
    · have h0 : pickBest b p = b := by unfold pickBest; rw [if_neg hbp]
      rw [h0] at h ⊢
      exact ih b h

theorem runBest_find (ps : List (Nat × String)) (b : Nat × String)
    (h : b.1 < (ps.foldl pickBest b).1) :
    ps.find? (fun p => decide ((ps.foldl pickBest b).1 ≤ p.1)) = some (ps.foldl pickBest b) := by
  induction ps generalizing b with
  | nil => exact absurd h (lt_irrefl _)
  | cons p ps ih =>
    simp only [List.foldl_cons] at h ⊢
    by_cases hbp : b.1 < p.1
    · have hpick : pickBest b p = p := by unfold pickBest; rw [if_pos hbp]
      simp only [hpick] at h ⊢
      by_cases hpr : p.1 < (ps.foldl pickBest p).1
      · rw [List.find?_cons_of_neg _ (by simp; omega)]
        exact ih p hpr
      · have hle : (ps.foldl pickBest p).1 ≤ p.1 := not_lt.mp hpr
        have heq : (ps.foldl pickBest p).1 = p.1 := le_antisymm hle (runBest_le ps p)
        have hfix := runBest_fix ps p heq
        rw [hfix]
        exact List.find?_cons_of_pos _ (by simp)
    · have hpick : pickBest b p = b := by unfold pickBest; rw [if_neg hbp]
      simp only [hpick] at h ⊢
      rw [List.find?_cons_of_neg _ (by simp; omega)]
      exact ih b h

theorem bestMatch_eq_runBest (sq : List Char) (c : CategoryData) :
    bestMatch sq c = (populatedLevelScores sq c).foldl pickBest (0, "") := by
  unfold bestMatch populatedLevelScores
  generalize levelList c = l
  generalize hb : ((0, "") : Nat × String) = b
  clear hb
  induction l generalizing b with
  | nil => rfl
  | cons lv l ih =>
    by_cases hlv : lv.1 = ""
    · have hb : (lv.1 != "") = false := by simp [hlv]
      simp [List.filter_cons, hlv, hb, ih]
    · have hb : (lv.1 != "") = true := by simp [hlv]
      simp [List.filter_cons, hlv, hb, ih]

theorem foldl_max_pos (l : List (Nat × String)) (b : Nat) :
    0 < l.foldl (fun a p => max a p.1) b ↔ 0 < b ∨ ∃ p ∈ l, 0 < p.1 := by
  induction l generalizing b with
  | nil => simp
  | cons p l ih =>
    simp only [List.foldl_cons, ih, lt_max_iff, List.mem_cons]
    constructor
    · rintro (⟨h | h⟩ | ⟨q, hq, hqpos⟩)
      · exact Or.inl h
      · exact Or.inr ⟨p, Or.inl rfl, h⟩
      · exact Or.inr ⟨q, Or.inr hq, hqpos⟩
    · rintro (h | ⟨q, (rfl | hq), hqpos⟩)
      · exact Or.inl (Or.inl h)
      · exact Or.inl (Or.inr hqpos)
      · exact Or.inr ⟨q, hq, hqpos⟩

theorem levCell_symm (s1 s2 : List Char) (f j i : Nat) :
    levCell s1 s2 f j i = levCell s2 s1 f i j := by
  induction f generalizing j i with
  | zero => rfl
  | succ f ih =>
    match j, i with
    | 0, 0 => rfl
    | 0, i + 1 => rfl
    | j + 1, 0 => rfl
    | j + 1, i + 1 =>
      have hcost : (s1.getD i ' ' = s2.getD j ' ') = (s2.getD j ' ' = s1.getD i ' ') :=
        propext ⟨Eq.symm, Eq.symm⟩
      simp only [levCell, ih, hcost]
      rw [Nat.min_comm (levCell s2 s1 f i (j + 1) + 1) (levCell s2 s1 f (i + 1) j + 1)]

theorem levCell_le (s1 s2 : List Char) (f j i : Nat) (h : j + i ≤ f) :
    levCell s1 s2 f j i ≤ max j i := by
  induction f generalizing j i with
  | zero => simp [levCell]
  | succ f ih =>
    match j, i with
    | 0, i => simp [levCell]
    | j + 1, 0 => simp [levCell]
    | j + 1, i + 1 =>
      have hdiag : levCell s1 s2 f j i ≤ max j i := ih j i (by omega)
      calc levCell s1 s2 (f + 1) (j + 1) (i + 1)
          ≤ levCell s1 s2 f j i + (if s1.getD i ' ' = s2.getD j ' ' then 0 else 1) := by
            simp only [levCell]
            exact Nat.min_le_right _ _
        _ ≤ max j i + 1 := by
            have : (if s1.getD i ' ' = s2.getD j ' ' then 0 else 1) ≤ 1 := by split <;> omega
            omega
        _ ≤ max (j + 1) (i + 1) := by omega

theorem levCell_diag (s : List Char) (i : Nat) : ∀ f, i + i ≤ f → levCell s s f i i = 0 := by
  induction i with
  | zero =>
    intro f _
    match f with
    | 0 => rfl
    | f + 1 => rfl
  | succ i ih =>
    intro f hf
    match f, hf with
    | f + 1, hf =>
      have hdiag : levCell s s f i i = 0 := ih f (by omega)
      simp [levCell, hdiag]

theorem levenshteinDistance_self (s : List Char) : levenshteinDistance s s = 0 :=
  levCell_diag s s.length (s.length + s.length) (le_refl _)

theorem levenshteinDistance_symm (a b : List Char) :
    levenshteinDistance a b = levenshteinDistance b a := by
  unfold levenshteinDistance
  rw [levCell_symm, Nat.add_comm]

theorem levenshteinDistance_le (a b : List Char) :
    levenshteinDistance a b ≤ max b.length a.length :=
  levCell_le a b _ _ _ (le_refl _)

theorem calculateSimilarity_formula (a b : List Char) (h : ¬(a = [] ∧ b = [])) :
    calculateSimilarity a b
      = (((max a.length b.length : Nat) : ℚ) - (levenshteinDistance a b : ℚ))
        / ((max a.length b.length : Nat) : ℚ) := by
  unfold calculateSimilarity
  by_cases hcmp : b.length < a.length
  · have hmx : max a.length b.length = a.length := Nat.max_eq_left hcmp.le
    have hlen : ¬ a.length = 0 := by omega
    simp only [hcmp, if_true, if_neg hlen, Rat.divInt_eq_div, hmx]
    push_cast
    ring
  · have hle : a.length ≤ b.length := not_lt.mp hcmp
    have hmx : max a.length b.length = b.length := Nat.max_eq_right hle
    have hlen : b.length ≠ 0 := by
      rcases not_and_or.mp h with h1 | h1
      · have := List.length_pos.mpr h1
        omega
      · have := List.length_pos.mpr h1
        omega
    simp only [hcmp, if_false, if_neg hlen, Rat.divInt_eq_div, hmx,
      levenshteinDistance_symm a b]
    push_cast
    ring

theorem calculateSimilarity_nonneg (a b : List Char) : 0 ≤ calculateSimilarity a b := by
  unfold calculateSimilarity
  by_cases hcmp : b.length < a.length <;> simp only [hcmp, if_true, if_false]
  · split
    · exact zero_le_one
    · rename_i hlen
      rw [Rat.divInt_eq_div]
      apply div_nonneg
      · have hd : levenshteinDistance a b ≤ a.length := by
          have := levenshteinDistance_le a b
          omega
        have h0 : (0 : Int) ≤ (a.length : Int) - (levenshteinDistance a b : Int) := by omega
        exact_mod_cast h0
      · have h0 : (0 : Int) ≤ (a.length : Int) := by omega
        exact_mod_cast h0
  · split
    · exact zero_le_one
    · rename_i hlen
      rw [Rat.divInt_eq_div]
      apply div_nonneg
      · have hd : levenshteinDistance b a ≤ b.length := by
          have := levenshteinDistance_le b a
          omega
        have h0 : (0 : Int) ≤ (b.length : Int) - (levenshteinDistance b a : Int) := by omega
        exact_mod_cast h0
      · have h0 : (0 : Int) ≤ (b.length : Int) := by omega
        exact_mod_cast h0

theorem calculateSimilarity_le_one (a b : List Char) : calculateSimilarity a b ≤ 1 := by
  unfold calculateSimilarity
  by_cases hcmp : b.length < a.length <;> simp only [hcmp, if_true, if_false]
  · split
    · exact le_refl _
    · rename_i hlen
      rw [Rat.divInt_eq_div]
      have hp : (0 : Int) < (a.length : Int) := by omega
      have hpos : (0 : ℚ) < (((a.length : Int)) : ℚ) := by exact_mod_cast hp
      rw [div_le_one hpos]
      have h0 : ((a.length : Int) - (levenshteinDistance a b : Int)) ≤ (a.length : Int) := by
        omega
      exact_mod_cast h0
  · split
    · exact le_refl _
    · rename_i hlen
      rw [Rat.divInt_eq_div]
      have hp : (0 : Int) < (b.length : Int) := by omega
      have hpos : (0 : ℚ) < (((b.length : Int)) : ℚ) := by exact_mod_cast hp
      rw [div_le_one hpos]
      have h0 : ((b.length : Int) - (levenshteinDistance b a : Int)) ≤ (b.length : Int) := by
        omega
      exact_mod_cast h0

theorem calculateSimilarity_self (s : List Char) : calculateSimilarity s s = 1 := by
  unfold calculateSimilarity
  simp only [lt_irrefl, if_false, ite_self]
  by_cases hlen : s.length = 0
  · rw [if_pos hlen]
  · rw [if_neg hlen, levenshteinDistance_self, Rat.divInt_eq_div]
    have ne0 : ((s.length : Nat) : ℚ) ≠ 0 := Nat.cast_ne_zero.mpr hlen
    push_cast
    rw [sub_zero, div_self ne0]

theorem jsSlice0_nonneg {α : Type} (l : List α) (n : Int) (h : ¬ n < 0) :
    jsSlice0 l n = l.take n.toNat := by
  unfold jsSlice0
  rw [if_neg h]

theorem jsSlice0_neg {α : Type} (l : List α) (n : Int) (h : n < 0) :
    jsSlice0 l n = l.take (l.length - n.natAbs) := by
  unfold jsSlice0
  rw [if_pos h]

theorem jsSlice0_subset {α : Type} (l : List α) (n : Int) : jsSlice0 l n ⊆ l := by
  unfold jsSlice0
  split <;> exact List.take_subset _ _

theorem string_eq_empty_iff (s : String) : s = "" ↔ s.data = [] := by
  cases s with
  | mk d =>
    constructor
    · intro h
      rw [h]
    · intro h
      rw [show (String.mk d) = String.mk [] from congrArg String.mk h]

theorem isPrefixOf_nil_left (l : List Char) : List.isPrefixOf [] l = true := by
  cases l <;> rfl

theorem scoreLevel_empty_query (v name : String) (h : v ≠ "") :
    scoreLevel [] (v, name) = (80 + levelBonus name, "시작일치(" ++ name ++ ")") := by
  have hd : v.data ≠ [] := fun hv => h ((string_eq_empty_iff v).mpr hv)
  have hne : ¬ (jsLower v.data = []) := by
    simp [jsLower, hd]
  simp only [scoreLevel]
  rw [if_neg hne, if_pos (by exact isPrefixOf_nil_left _)]

theorem bestMatch_foldl_keep (sq : List Char) (l : List (String × String)) (b : Nat × String)
    (h : ∀ lv ∈ l, lv.1 ≠ "" → (scoreLevel sq lv).1 ≤ b.1) :
    l.foldl (fun best lv => if lv.1 = "" then best else pickBest best (scoreLevel sq lv)) b
      = b := by
  induction l with
  | nil => rfl
  | cons lv l ih =>
    simp only [List.foldl_cons]
    by_cases hlv : lv.1 = ""
    · rw [if_pos hlv]
      exact ih fun x hx => h x (List.mem_cons_of_mem _ hx)
    · rw [if_neg hlv]
      have hle : (scoreLevel sq lv).1 ≤ b.1 := h lv (List.mem_cons_self _ _) hlv
      have hpk : pickBest b (scoreLevel sq lv) = b := by
        unfold pickBest
        rw [if_neg (not_lt.mpr hle)]
      rw [hpk]
      exact ih fun x hx => h x (List.mem_cons_of_mem _ hx)

theorem runBest_keep (ps : List (Nat × String)) (b : Nat × String)
    (h : ∀ p ∈ ps, p.1 ≤ b.1) : ps.foldl pickBest b = b := by
  induction ps with
  | nil => rfl
  | cons p ps ih =>
    simp only [List.foldl_cons]
    have hpk : pickBest b p = b := by
      unfold pickBest
      rw [if_neg (not_lt.mpr (h p (List.mem_cons_self _ _)))]
    rw [hpk]
    exact ih fun x hx => h x (List.mem_cons_of_mem _ hx)

theorem bestMatch_empty_query (c : CategoryData) (h1 : c.level1 ≠ "") :
    bestMatch [] c = (130, "시작일치(대분류)") := by
  rw [bestMatch_eq_runBest]
  have hb : (c.level1 != "") = true := by simp [h1]
  have hpps : populatedLevelScores [] c
      = scoreLevel [] (c.level1, "대분류")
        :: (([(c.level2, "중분류"), (c.level3, "소분류"), (c.level4, "세분류")].filter
              (fun lv => lv.1 != "")).map (scoreLevel [])) := by
    unfold populatedLevelScores levelList
    rw [List.filter_cons, if_pos hb, List.map_cons]
  rw [hpps]
  simp only [List.foldl_cons]
  have e1 : pickBest (0, "") (scoreLevel [] (c.level1, "대분류")) = (130, "시작일치(대분류)") := by
    rw [scoreLevel_empty_query _ _ h1]
    rfl
  rw [e1]
  apply runBest_keep
  intro p hp
  simp only [List.mem_map, List.mem_filter, List.mem_cons, List.not_mem_nil, or_false] at hp
  obtain ⟨lv, ⟨hmem, hlv⟩, rfl⟩ := hp
  have hne : lv.1 ≠ "" := by simpa using hlv
  rcases hmem with rfl | rfl | rfl <;> rw [scoreLevel_empty_query _ _ hne] <;> decide

theorem candidateOf_isSome_iff (sq : List Char) (c : CategoryData) :
    (candidateOf sq c).isSome = true ↔ 0 < (bestMatch sq c).1 := by
  unfold candidateOf
  by_cases h : 0 < (bestMatch sq c).1
  · simp [h]
  · simp [h]

/-- C1: for every category record and normalized query, the matcher scores each
populated level by tiers evaluated highest-priority first — exact gives
100 + bonus, prefix 80 + bonus, substring 60 + bonus, and otherwise the fuzzy
tier applies only when the similarity exceeds 0.6 and gives
floor(similarity * 40) + bonus — with level bonuses 50, 30, 20, 10 for
level1..level4; the record's candidate score is the highest score across its
populated levels, a candidate always carries a positive score, and a record
none of whose populated levels produces a score yields no candidate. -/
theorem claim_C1_matcher (sq : List Char) (c : CategoryData) :
    ((bestMatch sq c).1 = (populatedLevelScores sq c).foldl (fun a p => max a p.1) 0)
    ∧ ((candidateOf sq c).isSome ↔ ∃ lv ∈ levelList c, lv.1 ≠ "" ∧ 0 < (scoreLevel sq lv).1)
    ∧ (∀ m, candidateOf sq c = some m →
        m.cat = c ∧ m.score = (bestMatch sq c).1 ∧ m.matchType = (bestMatch sq c).2)
    ∧ (∀ cats : List CategoryData, ∀ m ∈ cats.filterMap (candidateOf sq), 0 < m.score)
    ∧ (∀ lv : String × String,
        (jsLower lv.1.data = sq →
          scoreLevel sq lv = (100 + levelBonus lv.2, "정확일치(" ++ lv.2 ++ ")"))
        ∧ (jsLower lv.1.data ≠ sq → jsStartsWith (jsLower lv.1.data) sq = true →
            scoreLevel sq lv = (80 + levelBonus lv.2, "시작일치(" ++ lv.2 ++ ")"))
        ∧ (jsLower lv.1.data ≠ sq → jsStartsWith (jsLower lv.1.data) sq = false →
            jsIncludes sq (jsLower lv.1.data) = true →
            scoreLevel sq lv = (60 + levelBonus lv.2, "포함일치(" ++ lv.2 ++ ")"))
        ∧ (jsLower lv.1.data ≠ sq → jsStartsWith (jsLower lv.1.data) sq = false →
            jsIncludes sq (jsLower lv.1.data) = false →
            Rat.divInt 6 10 < calculateSimilarity sq (jsLower lv.1.data) →
            scoreLevel sq lv
              = ((calculateSimilarity sq (jsLower lv.1.data) * 40).floor.toNat
                  + levelBonus lv.2, "유사일치(" ++ lv.2 ++ ")"))
        ∧ (jsLower lv.1.data ≠ sq → jsStartsWith (jsLower lv.1.data) sq = false →
            jsIncludes sq (jsLower lv.1.data) = false →
            ¬ (Rat.divInt 6 10 < calculateSimilarity sq (jsLower lv.1.data)) →
            scoreLevel sq lv = (0, "")))
    ∧ (levelBonus "대분류" = 50 ∧ levelBonus "중분류" = 30 ∧ levelBonus "소분류" = 20
        ∧ levelBonus "세분류" = 10) := by
  have hfst : (bestMatch sq c).1 = (populatedLevelScores sq c).foldl (fun a p => max a p.1) 0 := by
    rw [bestMatch_eq_runBest, runBest_fst]
  refine ⟨hfst, ?_, ?_, ?_, ?_, by decide⟩
  · rw [candidateOf_isSome_iff, hfst, foldl_max_pos]
    simp only [lt_irrefl, false_or, populatedLevelScores, List.mem_map, List.mem_filter,
      bne_iff_ne, ne_eq]
    constructor
    · rintro ⟨p, ⟨lv, ⟨hmem, hne⟩, rfl⟩, hpos⟩
      exact ⟨lv, hmem, hne, hpos⟩
    · rintro ⟨lv, hmem, hne, hpos⟩
      exact ⟨scoreLevel sq lv, ⟨lv, ⟨hmem, hne⟩, rfl⟩, hpos⟩
  · intro m hm
    unfold candidateOf at hm
    by_cases h : 0 < (bestMatch sq c).1
    · simp only [h, if_true, Option.some.injEq] at hm
      rw [← hm]
      exact ⟨rfl, rfl, rfl⟩
    · simp [h] at hm
  · intro cats m hm
    rw [List.mem_filterMap] at hm
    obtain ⟨c', _, hc'⟩ := hm
    unfold candidateOf at hc'
    by_cases h : 0 < (bestMatch sq c').1
    · simp only [h, if_true, Option.some.injEq] at hc'
      rw [← hc']
      exact h
    · simp [h] at hc'
  · intro lv
    refine ⟨?_, ?_, ?_, ?_, ?_⟩
    · intro h
      simp only [scoreLevel, if_pos h]
    · intro h1 h2
      simp only [scoreLevel, if_neg h1, if_pos h2]
    · intro h1 h2 h3
      simp only [scoreLevel, if_neg h1, h2, if_pos h3, Bool.false_eq_true, if_false]
    · intro h1 h2 h3 h4
      simp only [scoreLevel, if_neg h1, h2, h3, Bool.false_eq_true, if_false, if_pos h4]
    · intro h1 h2 h3 h4
      simp only [scoreLevel, if_neg h1, h2, h3, Bool.false_eq_true, if_false, if_neg h4]

/-- C1 witness: on the record `catEx1` and the query "패션의류", the exact tier
fires at level1 with bonus 50. -/
theorem claim_C1_matcher_witness :
    jsLower ("패션의류" : String).data = "패션의류".data
    ∧ scoreLevel ("패션의류".data) ("패션의류", "대분류")
        = (100 + levelBonus "대분류", "정확일치(" ++ "대분류" ++ ")") :=
  ⟨by decide,
    ((claim_C1_matcher ("패션의류".data) catEx1).2.2.2.2.1 ("패션의류", "대분류")).1 (by decide)⟩

/-- C9: when several populated levels attain the record's same highest score, the
reported matchType is that of the earliest such level: the `(score, matchType)`
pair returned by the per-record scan is the first populated-level pair whose
score reaches the maximum, because the scan replaces its tracked best only on a
strictly greater score. -/
theorem claim_C9_tie_matchType (sq : List Char) (c : CategoryData)
    (h : 0 < (bestMatch sq c).1) :
    (populatedLevelScores sq c).find?
        (fun p => decide ((bestMatch sq c).1 ≤ p.1)) = some (bestMatch sq c) := by
  simp only [bestMatch_eq_runBest] at h ⊢
  exact runBest_find _ _ h

/-- C9 witness: for the query "신발" on `catTie`, level1 prefix-matches (80+50)
and level2 exactly matches (100+30), both scoring 130; the reported matchType is
the level1 (earliest) one. -/
theorem claim_C9_tie_matchType_witness :
    (0 < (bestMatch ("신발".data) catTie).1)
    ∧ bestMatch ("신발".data) catTie = (130, "시작일치(대분류)")
    ∧ (scoreLevel ("신발".data) ("신발가방", "대분류")).1 = 130
    ∧ (scoreLevel ("신발".data) ("신발", "중분류")).1 = 130
    ∧ (populatedLevelScores ("신발".data) catTie).find?
        (fun p => decide ((bestMatch ("신발".data) catTie).1 ≤ p.1))
      = some (bestMatch ("신발".data) catTie) :=
  ⟨by decide, by decide, by decide, by decide,
    claim_C9_tie_matchType ("신발".data) catTie (by decide)⟩

/-- C2: for candidate lists with pairwise-distinct codes and positive
`maxResults`, the ranker is deterministic (the same result for any input
order), returns the candidates sorted by descending score with ties broken by
ascending code, truncates to at most `maxResults` entries, and with
`maxResults = 1` on a nonempty candidate list returns exactly the top-ranked
candidate. -/
theorem claim_C2_ranker (l₁ l₂ : List MatchCand) (n : Int) (hperm : l₁.Perm l₂)
    (hd : distinctCodes l₁) (hn : 0 < n) :
    rankCandidates l₁ n = rankCandidates l₂ n
    ∧ List.Sorted rankLe (rankCandidates l₁ n)
    ∧ rankCandidates l₁ n = (List.insertionSort rankLe l₁).take n.toNat
    ∧ (rankCandidates l₁ n).length ≤ n.toNat
    ∧ (l₁ ≠ [] → ∃ m t, List.insertionSort rankLe l₁ = m :: t ∧ rankCandidates l₁ 1 = [m]
        ∧ ∀ x ∈ l₁, rankLe m x) := by
  have htake : rankCandidates l₁ n = (List.insertionSort rankLe l₁).take n.toNat :=
    jsSlice0_nonneg _ _ (by omega)
  refine ⟨?_, ?_, htake, ?_, ?_⟩
  · unfold rankCandidates
    rw [insertionSort_eq_of_perm hperm hd]
  · rw [htake]
    exact List.Pairwise.sublist (List.take_sublist _ _) (sorted_rank l₁)
  · rw [htake]
    exact (List.length_take _ _).le.trans (Nat.min_le_left _ _)
  · intro hne
    rcases hsrt : List.insertionSort rankLe l₁ with _ | ⟨m, t⟩
    · exfalso
      have := (perm_rank l₁).length_eq
      rw [hsrt] at this
      simp only [List.length_nil] at this
      exact hne (List.length_eq_zero.mp this.symm)
    · refine ⟨m, t, rfl, ?_, ?_⟩
      · have h1 : rankCandidates l₁ 1 = (List.insertionSort rankLe l₁).take (1 : Int).toNat :=
          jsSlice0_nonneg _ _ (by omega)
        rw [h1, hsrt]
        rfl
      · intro x hx
        have hx' : x ∈ List.insertionSort rankLe l₁ := ((perm_rank l₁).mem_iff).mpr hx
        rw [hsrt] at hx'
        rcases List.mem_cons.mp hx' with rfl | hx''
        · exact rankLe_refl x
        · have hs := sorted_rank l₁
          rw [hsrt] at hs
          exact (List.sorted_cons.mp hs).1 x hx''

/-- C2 witness: three concrete candidates with distinct codes (two tied on
score), presented in two different orders, rank identically. -/
theorem claim_C2_ranker_witness :
    ([candB, candA, candC] : List MatchCand).Perm [candC, candA, candB]
    ∧ distinctCodes [candB, candA, candC]
    ∧ ((0 : Int) < 3)
    ∧ rankCandidates [candB, candA, candC] 3 = rankCandidates [candC, candA, candB] 3 :=
  ⟨by decide, by decide, by decide,
    (claim_C2_ranker [candB, candA, candC] [candC, candA, candB] 3
      (by decide) (by decide) (by decide)).1⟩

/-- C10: a negative `max_results` value n is neither rejected nor does it return
the full ranked list: `slice(0, n)` removes the last |n| entries of the ranked
list (yielding the empty list when |n| is at least its length), so e.g.
`max_results = -1` returns all matches except the lowest-ranked one. -/
theorem claim_C10_negative_maxResults (cats : List CategoryData) (q : String) (n : Int)
    (hn : n < 0) :
    smartCategorySearch cats q n
      = (sortedCandidates cats q).take ((sortedCandidates cats q).length - n.natAbs)
    ∧ (∀ l : List MatchCand, jsSlice0 l n = l.take (l.length - n.natAbs))
    ∧ (n = -1 → smartCategorySearch cats q n = (sortedCandidates cats q).dropLast)
    ∧ (sortedCandidates cats q ≠ [] →
        (smartCategorySearch cats q n).length < (sortedCandidates cats q).length) := by
  have heq : smartCategorySearch cats q n = jsSlice0 (sortedCandidates cats q) n := rfl
  refine ⟨?_, ?_, ?_, ?_⟩
  · rw [heq, jsSlice0_neg _ _ hn]
  · intro l
    exact jsSlice0_neg l n hn
  · intro h1
    subst h1
    rw [heq, jsSlice0_neg _ _ hn, List.dropLast_eq_take]
    norm_num
  · intro hne
    rw [heq, jsSlice0_neg _ _ hn, List.length_take]
    have h1 : 0 < (sortedCandidates cats q).length := List.length_pos.mpr hne
    have h2 : 1 ≤ n.natAbs := by omega
    omega

/-- C10 witness: three records all matching "운동"; `max_results = -1` keeps
exactly the first two ranked matches. -/
theorem claim_C10_negative_maxResults_witness :
    ((-1 : Int) < 0)
    ∧ (smartCategorySearch cats3 "운동" (-1)).length = 2
    ∧ smartCategorySearch cats3 "운동" (-1)
        = (sortedCandidates cats3 "운동").take
            ((sortedCandidates cats3 "운동").length - (-1 : Int).natAbs) :=
  ⟨by decide, by decide, (claim_C10_negative_maxResults cats3 "운동" (-1) (by decide)).1⟩

/-- C3: similarity equals (max_len - levenshteinDistance(a,b)) / max_len over the
longer length, lies in [0, 1], equals 1.0 when both strings are empty (hence
similarity(s, s) = 1.0); the distance satisfies lev("", "") = 0 and
lev("kitten", "sitting") = 3. -/
theorem claim_C3_similarity (a b : List Char) :
    (¬(a = [] ∧ b = []) →
      calculateSimilarity a b
        = (((max a.length b.length : Nat) : ℚ) - (levenshteinDistance a b : ℚ))
          / ((max a.length b.length : Nat) : ℚ))
    ∧ 0 ≤ calculateSimilarity a b
    ∧ calculateSimilarity a b ≤ 1
    ∧ (a = [] → b = [] → calculateSimilarity a b = 1)
    ∧ calculateSimilarity a a = 1
    ∧ levenshteinDistance [] [] = 0
    ∧ levenshteinDistance "kitten".data "sitting".data = 3 := by
  refine ⟨calculateSimilarity_formula a b, calculateSimilarity_nonneg a b,
    calculateSimilarity_le_one a b, ?_, calculateSimilarity_self a, rfl, by decide⟩
  intro ha hb
  subst ha
  subst hb
  rfl

/-- C3 witness: the formula at a concrete pair of different-length strings. -/
theorem claim_C3_similarity_witness :
    ¬("ab".data = [] ∧ "b".data = [])
    ∧ calculateSimilarity "ab".data "b".data
        = (((max ("ab".data).length ("b".data).length : Nat) : ℚ)
            - (levenshteinDistance "ab".data "b".data : ℚ))
          / ((max ("ab".data).length ("b".data).length : Nat) : ℚ) :=
  ⟨by decide, (claim_C3_similarity "ab".data "b".data).1 (by decide)⟩

/-- C5: for every query with at least one matching record and a positive
max_results, the handler returns the success shape
(message, total_found, categories, next_steps) where total_found equals the
number of returned categories, the entries are the formatted ranked candidates,
and each entry's category string is the breadcrumb join of its non-empty
levels. -/
theorem claim_C5_success_shape (cats : List CategoryData) (q : String) (n : Int)
    (hn : 0 < n) (hm : ∃ c ∈ cats, (candidateOf (normQuery q) c).isSome) :
    findCategoryHandler cats q n
      = FindCategoryResult.success (successMessage q (smartCategorySearch cats q n).length)
          (smartCategorySearch cats q n).length
          ((smartCategorySearch cats q n).map mkEntry) nextStepsList
    ∧ 0 < (smartCategorySearch cats q n).length
    ∧ ((smartCategorySearch cats q n).map mkEntry).length = (smartCategorySearch cats q n).length
    ∧ (∀ e ∈ (smartCategorySearch cats q n).map mkEntry,
        e.category = String.intercalate " > "
          ([e.levels.l1, e.levels.l2, e.levels.l3, e.levels.l4].filter (fun s => s != ""))) := by
  obtain ⟨c, hc, hsome⟩ := hm
  obtain ⟨m, hmEq⟩ := Option.isSome_iff_exists.mp hsome
  have hmem : m ∈ cats.filterMap (candidateOf (normQuery q)) :=
    List.mem_filterMap.mpr ⟨c, hc, hmEq⟩
  have hmem2 : m ∈ sortedCandidates cats q := ((perm_rank _).mem_iff).mpr hmem
  have hlen : 0 < (sortedCandidates cats q).length :=
    List.length_pos.mpr (List.ne_nil_of_mem hmem2)
  have heq : smartCategorySearch cats q n = (sortedCandidates cats q).take n.toNat :=
    jsSlice0_nonneg _ _ (by omega)
  have hpos : 0 < (smartCategorySearch cats q n).length := by
    rw [heq, List.length_take]
    have : 0 < n.toNat := by omega
    omega
  have hne0 : ¬ (smartCategorySearch cats q n).length = 0 := by omega
  refine ⟨?_, hpos, List.length_map _ _, ?_⟩
  · unfold findCategoryHandler
    rw [if_neg hne0]
  · intro e he
    rw [List.mem_map] at he
    obtain ⟨m2, _, rfl⟩ := he
    rfl

/-- C5 witness: the success shape at a concrete matching query. -/
theorem claim_C5_success_shape_witness :
    ((0 : Int) < 10)
    ∧ (∃ c ∈ [catEx1], (candidateOf (normQuery "패션") c).isSome)
    ∧ findCategoryHandler [catEx1] "패션" 10
        = FindCategoryResult.success
            (successMessage "패션" (smartCategorySearch [catEx1] "패션" 10).length)
            (smartCategorySearch [catEx1] "패션" 10).length
            ((smartCategorySearch [catEx1] "패션" 10).map mkEntry) nextStepsList :=
  ⟨by decide, by decide, (claim_C5_success_shape [catEx1] "패션" 10 (by decide) (by decide)).1⟩

/-- C6: a query matching zero records yields the no-results shape — the message
plus the static non-empty suggestion list — as a normal terminal return value of
the (total) handler function; no exception is involved. -/
theorem claim_C6_no_results (cats : List CategoryData) (q : String) (n : Int)
    (h : ∀ c ∈ cats, candidateOf (normQuery q) c = none) :
    findCategoryHandler cats q n
      = FindCategoryResult.noMatches (noResultMessage q) suggestionList
    ∧ suggestionList ≠ [] ∧ suggestionList.length = 10 := by
  have hfm : cats.filterMap (candidateOf (normQuery q)) = [] := by
    rw [List.filterMap_eq_nil_iff]
    exact h
  have hsorted : sortedCandidates cats q = [] := by
    unfold sortedCandidates
    rw [hfm]
    rfl
  have hres : smartCategorySearch cats q n = [] := by
    have h0 : smartCategorySearch cats q n = jsSlice0 (sortedCandidates cats q) n := rfl
    rw [h0, hsorted]
    unfold jsSlice0
    split <;> simp
  refine ⟨?_, by decide, by decide⟩
  simp [findCategoryHandler, hres]

/-- C6 witness: the no-results shape for a query matching nothing. -/
theorem claim_C6_no_results_witness :
    (∀ c ∈ [catMiss], candidateOf (normQuery "패션") c = none)
    ∧ findCategoryHandler [catMiss] "패션" 7
        = FindCategoryResult.noMatches (noResultMessage "패션") suggestionList :=
  ⟨by decide, (claim_C6_no_results [catMiss] "패션" 7 (by decide)).1⟩

theorem scoreLevel_congr (sq : List Char) (v w name : String)
    (h : jsLower v.data = jsLower w.data) :
    scoreLevel sq (v, name) = scoreLevel sq (w, name) := by
  simp only [scoreLevel, h]

theorem jsLower_eq_nil_iff (v w : String) (h : jsLower v.data = jsLower w.data) :
    v = "" ↔ w = "" := by
  rw [string_eq_empty_iff, string_eq_empty_iff]
  constructor
  · intro hv
    have h2 : jsLower w.data = [] := by
      rw [← h, hv]
      rfl
    simpa [jsLower] using h2
  · intro hw
    have h2 : jsLower v.data = [] := by
      rw [h, hw]
      rfl
    simpa [jsLower] using h2

theorem bestMatch_step_congr (sq : List Char) (v w name : String)
    (h : jsLower v.data = jsLower w.data) (b : Nat × String) :
    (if v = "" then b else pickBest b (scoreLevel sq (v, name)))
      = (if w = "" then b else pickBest b (scoreLevel sq (w, name))) := by
  by_cases hv : v = ""
  · have hw : w = "" := (jsLower_eq_nil_iff v w h).mp hv
    rw [if_pos hv, if_pos hw]
  · have hw : ¬ w = "" := fun hw => hv ((jsLower_eq_nil_iff v w h).mpr hw)
    rw [if_neg hv, if_neg hw, scoreLevel_congr sq v w name h]

theorem bestMatch_congr (sq : List Char) (c c2 : CategoryData)
    (h1 : jsLower c.level1.data = jsLower c2.level1.data)
    (h2 : jsLower c.level2.data = jsLower c2.level2.data)
    (h3 : jsLower c.level3.data = jsLower c2.level3.data)
    (h4 : jsLower c.level4.data = jsLower c2.level4.data) :
    bestMatch sq c = bestMatch sq c2 := by
  simp only [bestMatch, levelList, List.foldl_cons, List.foldl_nil]
  rw [bestMatch_step_congr sq _ _ "대분류" h1, bestMatch_step_congr sq _ _ "중분류" h2,
    bestMatch_step_congr sq _ _ "소분류" h3, bestMatch_step_congr sq _ _ "세분류" h4]

/-- C4 counterexample: the handler performs no input validation. A
whitespace-only query is not rejected as a validation error and is not treated
as matching nothing — it returns the success shape with one matching category —
and the non-positive max_results value 0 is not rejected either: it is silently
passed through to slice and produces the no-results shape. -/
theorem claim_C4_counterexample :
    (findCategoryHandler [catEx1] "   " 10).totalFound = some 1
    ∧ (findCategoryHandler [catEx1] "   " 10).isNoMatches = false
    ∧ findCategoryHandler [catEx1] "패션의류" 0
        = FindCategoryResult.noMatches (noResultMessage "패션의류") suggestionList :=
  ⟨by decide, by decide, by decide⟩

/-- C4 amended: the operation never validates query or max_results. An empty or
whitespace-only query normalizes to the empty string and prefix-matches every
record with a populated level1 (score 130, matchType 시작일치(대분류)) instead of
being rejected or matching nothing; a max_results of 0 is not rejected but
passed to slice, yielding the no-results shape. -/
theorem claim_C4_amended :
    (∀ (q : String) (c : CategoryData), normQuery q = [] → c.level1 ≠ "" →
      bestMatch (normQuery q) c = (130, "시작일치(대분류)"))
    ∧ (∀ (cats : List CategoryData) (q : String),
        findCategoryHandler cats q 0
          = FindCategoryResult.noMatches (noResultMessage q) suggestionList) := by
  constructor
  · intro q c hq h1
    rw [hq]
    exact bestMatch_empty_query c h1
  · intro cats q
    have hres : smartCategorySearch cats q 0 = [] := by
      have h0 : smartCategorySearch cats q 0 = jsSlice0 (sortedCandidates cats q) 0 := rfl
      rw [h0, jsSlice0_nonneg _ _ (by omega)]
      rfl
    simp [findCategoryHandler, hres]

/-- C4 amended witness: a single-space query normalizes to empty and
prefix-matches the sample record. -/
theorem claim_C4_amended_witness :
    normQuery " " = []
    ∧ catEx1.level1 ≠ ""
    ∧ bestMatch (normQuery " ") catEx1 = (130, "시작일치(대분류)") :=
  ⟨by decide, by decide, claim_C4_amended.1 " " catEx1 (by decide) (by decide)⟩

/-- C7 counterexample: level strings are only lower-cased, never trimmed, for
comparison. For the query "패션" and a record whose level1 is "패션 " (trailing
space), the implementation reports a prefix match scoring 130, whereas the
specification's trimmed comparison would report an exact match scoring 150. -/
theorem claim_C7_counterexample :
    scoreLevel (normQuery "패션") ("패션 ", "대분류") = (130, "시작일치(대분류)")
    ∧ scoreLevelTrimmed (normQuery "패션") ("패션 ", "대분류") = (150, "정확일치(대분류)")
    ∧ bestMatch (normQuery "패션") catPad = (130, "시작일치(대분류)") :=
  ⟨by decide, by decide, by decide⟩

/-- C7 amended: the query is normalized by lower-casing and trimming; each
present level string is lower-cased — but not trimmed — for comparison only;
and the output entries preserve the original level strings and casing. -/
theorem claim_C7_amended :
    (∀ (cats : List CategoryData) (q1 q2 : String) (n : Int), normQuery q1 = normQuery q2 →
      smartCategorySearch cats q1 n = smartCategorySearch cats q2 n)
    ∧ (∀ (sq : List Char) (c c2 : CategoryData),
        jsLower c.level1.data = jsLower c2.level1.data →
        jsLower c.level2.data = jsLower c2.level2.data →
        jsLower c.level3.data = jsLower c2.level3.data →
        jsLower c.level4.data = jsLower c2.level4.data →
        bestMatch sq c = bestMatch sq c2)
    ∧ (∀ (cats : List CategoryData) (q : String) (n : Int),
        ∀ e ∈ (smartCategorySearch cats q n).map mkEntry,
          ∃ c ∈ cats, e.code = c.code
            ∧ e.levels = ⟨c.level1, c.level2, c.level3, c.level4⟩
            ∧ e.category = breadcrumb c) := by
  refine ⟨?_, ?_, ?_⟩
  · intro cats q1 q2 n h
    unfold smartCategorySearch
    rw [h]
  · intro sq c c2 h1 h2 h3 h4
    exact bestMatch_congr sq c c2 h1 h2 h3 h4
  · intro cats q n e he
    rw [List.mem_map] at he
    obtain ⟨m, hm, rfl⟩ := he
    have hm2 : m ∈ jsSlice0 (sortedCandidates cats q) n := hm
    have hm3 : m ∈ sortedCandidates cats q := jsSlice0_subset _ _ hm2
    have hm4 : m ∈ cats.filterMap (candidateOf (normQuery q)) :=
      ((perm_rank _).mem_iff).mp hm3
    rw [List.mem_filterMap] at hm4
    obtain ⟨c, hc, hcand⟩ := hm4
    unfold candidateOf at hcand
    by_cases hb : 0 < (bestMatch (normQuery q) c).1
    · simp only [hb, if_true, Option.some.injEq] at hcand
      refine ⟨c, hc, ?_, ?_, ?_⟩ <;> rw [← hcand] <;> rfl
    · simp [hb] at hcand

/-- C7 amended witness: two queries differing only in surrounding whitespace
normalize identically and search identically. -/
theorem claim_C7_amended_witness :
    normQuery "패션의류 " = normQuery " 패션의류"
    ∧ smartCategorySearch [catEx1] "패션의류 " 10 = smartCategorySearch [catEx1] " 패션의류" 10 :=
  ⟨by decide, claim_C7_amended.1 [catEx1] "패션의류 " " 패션의류" 10 (by decide)⟩

/-- C8: the loader is idempotent — a successful first load caches its data and
every later load returns the same cached sequence whatever the dataset now
holds — an explicit cache reset makes the next load re-read the dataset rather
than return stale records, and a load that finds no dataset or malformed data
returns the empty sequence instead of propagating the exception. -/
theorem claim_C8_load_cache :
    (∀ (d : List CategoryData) (b s : ReadResult), getCategoriesData (some d) b s = (d, some d))
    ∧ (∀ (b s : ReadResult) (d : List CategoryData),
        (getCategoriesData none b s).2 = some d →
          (getCategoriesData none b s).1 = d
          ∧ ∀ (b2 s2 : ReadResult), getCategoriesData (some d) b2 s2 = (d, some d))
    ∧ (∀ (cache : Option (List CategoryData)) (b s : ReadResult),
        getCategoriesData (clearCategoriesCache cache) b s = getCategoriesData none b s)
    ∧ (∀ (cache : Option (List CategoryData)) (s : ReadResult) (d2 : List CategoryData),
        getCategoriesData (clearCategoriesCache cache) (ReadResult.found d2) s = (d2, some d2))
    ∧ (∀ s : ReadResult, getCategoriesData none ReadResult.malformed s = ([], none))
    ∧ getCategoriesData none ReadResult.missing ReadResult.malformed = ([], none)
    ∧ getCategoriesData none ReadResult.missing ReadResult.missing = ([], none) := by
  refine ⟨fun d b s => rfl, ?_, fun cache b s => rfl, fun cache s d2 => rfl,
    fun s => rfl, rfl, rfl⟩
  intro b s d h
  cases b with
  | found d0 =>
    have hd : d0 = d := by simpa [getCategoriesData] using h
    subst hd
    exact ⟨rfl, fun b2 s2 => rfl⟩
  | malformed => simp [getCategoriesData] at h
  | missing =>
    cases s with
    | found d0 =>
      have hd : d0 = d := by simpa [getCategoriesData] using h
      subst hd
      exact ⟨rfl, fun b2 s2 => rfl⟩
    | malformed => simp [getCategoriesData] at h
    | missing => simp [getCategoriesData] at h

/-- C8 witness: a successful first load caches the parsed records, and a second
load with both paths now missing still returns the cached records. -/
theorem claim_C8_load_cache_witness :
    (getCategoriesData none (ReadResult.found [catEx1]) ReadResult.missing).2 = some [catEx1]
    ∧ (getCategoriesData none (ReadResult.found [catEx1]) ReadResult.missing).1 = [catEx1]
    ∧ getCategoriesData (some [catEx1]) ReadResult.missing ReadResult.missing
        = ([catEx1], some [catEx1]) :=
  ⟨rfl,
    (claim_C8_load_cache.2.1 (ReadResult.found [catEx1]) ReadResult.missing [catEx1] rfl).1,
    (claim_C8_load_cache.2.1 (ReadResult.found [catEx1]) ReadResult.missing [catEx1] rfl).2
      ReadResult.missing ReadResult.missing⟩

example : bestMatch (normQuery "패션") catPad = (130, "시작일치(대분류)") := by decide
example : scoreLevelTrimmed (normQuery "패션") ("패션 ", "대분류") = (150, "정확일치(대분류)") := by
  decide
example : (findCategoryHandler [catEx1] "   " 10).totalFound = some 1 := by decide
example : candidateOf (normQuery "패션") catMiss = none := by decide
example : rankCandidates [candB, candA, candC] 10 = [candA, candC, candB] := by decide
example : levenshteinDistance "kitten".data "sitting".data = 3 := by decide
